import Mathlib

/-!
Verification of the xitca-web core against its specification.

The development shallowly embeds two subsystems of the repository:

* the PostgreSQL `SharedClient` supervisor (`src/postgres/src/pool.rs`) and
  the driver `connect` failover loop (`src/postgres/src/driver.rs`);
* the HTTP/1 connection dispatcher
  (`src/actix-http-alt/src/h1/proto/dispatcher.rs`).

Pure control flow is translated into Lean functions; interactions with
collaborator modules that are outside the analysed sources (the inner
`Client` query methods, the request-body decoder, the user services) are
parameters of the embedding, and observable side effects (lock operations,
reconnects, writes, service calls) are recorded as explicit event traces.
-/

namespace Pg

/-- Bytes of a frontend write buffer, as carried by `Error::DriverDown`. -/
abbrev Buf := List Nat

/-- `xitca_postgres::error::Error`, restricted to the shape the pool code
inspects: `DriverDown` carries the unsent frontend bytes, every other
error is opaque. -/
inductive Error where
  | driverDown (buf : Buf)
  | other (code : Nat)
deriving DecidableEq, Repr

/-- Observable events of a `SharedClient` query call
(`src/postgres/src/pool.rs`, `query_raw` / `query_simple`). -/
inductive QueryEv where
  | readLock
  | dropReadLock
  | reconnect
  | queryBuf (buf : Buf)
deriving DecidableEq, Repr

/-- Environment of one `SharedClient::query_raw` call: the result of
`cli.query_raw(stmt, params)` on the current client, and the result of
`query_buf(stmt, buf)` on the client observed after `reconnect()`.
(`Client`'s own query methods live outside the analysed sources and are
parameters.) -/
structure QueryEnv (R : Type) where
  clientResult : Except Error R
  retryResult : Buf → Except Error R

/-- `SharedClient::query_raw` (`src/postgres/src/pool.rs` lines 128-146):
acquire the read lock, call the client; on `Err(DriverDown(msg))` drop the
read lock, `reconnect()`, re-acquire the read lock and call
`query_buf(stmt, msg)`; return every other result unchanged. -/
def SharedClient.query_raw {R : Type} (env : QueryEnv R) : Except Error R × List QueryEv :=
  match env.clientResult with
  | .error (.driverDown msg) =>
      (env.retryResult msg,
        [.readLock, .dropReadLock, .reconnect, .readLock, .queryBuf msg])
  | res => (res, [.readLock])

/-- `SharedClient::query_simple` (`src/postgres/src/pool.rs` lines 148-161):
identical control flow, retrying via `query_buf_simple(msg)`. -/
def SharedClient.query_simple {R : Type} (env : QueryEnv R) : Except Error R × List QueryEv :=
  match env.clientResult with
  | .error (.driverDown msg) =>
      (env.retryResult msg,
        [.readLock, .dropReadLock, .reconnect, .readLock, .queryBuf msg])
  | res => (res, [.readLock])

/-- `Spawner` (`src/postgres/src/pool.rs` lines 37-39): a lock over an
optional shared `Notify`. The `Arc<Notify>` identity is modelled by a
counter-allocated id. -/
structure Spawner where
  notify : Option Nat
  nextId : Nat
deriving DecidableEq, Repr

/-- `Spawner::spawn_or_wait` (`src/postgres/src/pool.rs` lines 44-53):
under the lock, return a clone of the existing `Notify` if present
(follower path), otherwise install a fresh one and return `None`
(leader path). -/
def Spawner.spawn_or_wait (s : Spawner) : Option Nat × Spawner :=
  match s.notify with
  | some n => (some n, s)
  | none => (none, { notify := some s.nextId, nextId := s.nextId + 1 })

/-- Result of dropping a `SpawnGuard`: the spawner state afterwards and
whether `notify_waiters()` was invoked. -/
structure GuardDropResult where
  state : Spawner
  notified : Bool
deriving DecidableEq, Repr

/-- `impl Drop for SpawnGuard` (`src/postgres/src/pool.rs` lines 67-75):
take the `Notify` out of the slot; if one was present, broadcast
`notify_waiters()`. -/
def SpawnGuard.dropGuard (s : Spawner) : GuardDropResult :=
  match s.notify with
  | some _ => ⟨{ s with notify := none }, true⟩
  | none => ⟨s, false⟩

/-- Repeated calls of `spawn_or_wait` threading the spawner state,
collecting each call's return value. -/
def Spawner.spawnCalls (s : Spawner) : Nat → List (Option Nat) × Spawner
  | 0 => ([], s)
  | n + 1 =>
      let (r, s') := s.spawn_or_wait
      let (rs, s'') := s'.spawnCalls n
      (r :: rs, s'')

/-- A prepared-statement cache entry `(id, query, types)` as stored in
`Persist::statements_cache` (`src/postgres/src/pool.rs` line 28); the
postgres `Type` oids are modelled as naturals. -/
abbrev CacheEntry := Nat × String × List Nat

/-- The post-reconnect `Client` as the supervisor observes it: the identity
of the connection obtained from `connect` and the statements prepared on it
with `prepare_with_id`. -/
structure MClient where
  connId : Nat
  prepared : List CacheEntry
deriving DecidableEq, Repr

/-- Observable events of the leader reconnect path
(`SpawnGuard::spawn` and `SharedClient::reconnect`). -/
inductive SpawnEv where
  | connectAttempt (i : Nat)
  | sleep1s
  | prepareWithId (e : CacheEntry)
  | writeLockAcquire
  | writeLockDrop
  | guardDrop
deriving DecidableEq, Repr

/-- The retry loop of `SpawnGuard::spawn` (`src/postgres/src/pool.rs`
lines 81-88): attempt `connect(&mut config.clone())`; on error sleep one
second and retry; on success break with the new connection. `outcome i`
is attempt `i`'s result (`none` = connect error, `some c` = connection
`c`); the loop is unbounded in the source, so it is embedded with fuel. -/
def connectRetry (outcome : Nat → Option Nat) : Nat → Nat → Option (Nat × List SpawnEv)
  | _, 0 => none
  | i, fuel + 1 =>
      match outcome i with
      | some c => some (c, [.connectAttempt i])
      | none =>
          (connectRetry outcome (i + 1) fuel).map
            fun p => (p.1, .connectAttempt i :: .sleep1s :: p.2)

/-- `SpawnGuard::spawn` (`src/postgres/src/pool.rs` lines 80-97): run the
connect retry loop, spawn the driver task, then for every `(id, query,
types)` of `statements_cache` call `cli.prepare_with_id(id, query, types)`
(its result is discarded by `let _ =`; the prepare itself lives outside
the analysed sources and is modelled as registering the statement under
its preserved id on the new client). -/
def SpawnGuard.spawn (outcome : Nat → Option Nat) (cache : List CacheEntry) (fuel : Nat) :
    Option (MClient × List SpawnEv) :=
  (connectRetry outcome 0 fuel).map
    fun p => (⟨p.1, cache⟩, p.2 ++ cache.map SpawnEv.prepareWithId)

/-- The leader branch of `SharedClient::reconnect` (`src/postgres/src/pool.rs`
lines 199-210): create the `SpawnGuard`, take the write lock, run
`guard.spawn()`, store the new client, drop the write lock, then drop the
guard. -/
def SharedClient.reconnectLeader (outcome : Nat → Option Nat) (cache : List CacheEntry)
    (fuel : Nat) : Option (MClient × List SpawnEv) :=
  (SpawnGuard.spawn outcome cache fuel).map
    fun p => (p.1, .writeLockAcquire :: p.2 ++ [.writeLockDrop, .guardDrop])

/-- The connect / sleep event pattern of `k` failed attempts starting at
index `i` followed by a successful attempt. -/
def attemptTrace (i : Nat) : Nat → List SpawnEv
  | 0 => [.connectAttempt i]
  | k + 1 => .connectAttempt i :: .sleep1s :: attemptTrace (i + 1) k

/-- Environment of one `SharedClient::pipeline` call: the fast-path result
of `cli._pipeline::<SYNC_MODE>(&columns, buf)`, and for the `n`-th
slow-path iteration the result of
`_pipeline_no_additive_sync::<SYNC_MODE>(&columns, buf)` on the
post-reconnect client. -/
structure PipeEnv (R : Type) where
  fastResult : Except Error R
  slowResult : Nat → Buf → Except Error R

/-- Observable events of the pipeline path. -/
inductive PipeEv where
  | readLock
  | fastPipeline (buf : Buf)
  | reconnect
  | noAdditiveSync (buf : Buf)
deriving DecidableEq, Repr

/-- `SharedClient::pipeline_slow` (`src/postgres/src/pool.rs` lines
249-274): loop `reconnect()`, re-acquire the read lock, call
`_pipeline_no_additive_sync` with the current buffer; on
`Err(DriverDown(buf))` store the returned buffer and loop; otherwise
return. The source loop is unbounded, so it is embedded with fuel
(`none` = fuel exhausted while the driver keeps going down). -/
def SharedClient.pipeline_slow {R : Type} (env : PipeEnv R) :
    Nat → Buf → Nat → Option (Except Error R × List PipeEv)
  | _, _, 0 => none
  | k, buf, fuel + 1 =>
      match env.slowResult k buf with
      | .error (.driverDown buf') =>
          (SharedClient.pipeline_slow env (k + 1) buf' fuel).map
            fun p => (p.1, .reconnect :: .readLock :: .noAdditiveSync buf :: p.2)
      | res => some (res, [.reconnect, .readLock, .noAdditiveSync buf])

/-- `SharedClient::pipeline` (`src/postgres/src/pool.rs` lines 229-247):
read lock, fast path `_pipeline::<SYNC_MODE>`;
on `Err(DriverDown(buf))` store `buf` into the pipeline and run
`pipeline_slow`; other results are returned directly. -/
def SharedClient.pipeline {R : Type} (env : PipeEnv R) (buf : Buf) (fuel : Nat) :
    Option (Except Error R × List PipeEv) :=
  match env.fastResult with
  | .error (.driverDown buf') =>
      (SharedClient.pipeline_slow env 0 buf' fuel).map
        fun p => (p.1, .readLock :: .fastPipeline buf :: p.2)
  | res => some (res, [.readLock, .fastPipeline buf])

/-- `driver::connect` (`src/postgres/src/driver.rs` lines 36-47), with each
host's `connect_host` outcome pre-resolved: `err` starts as `None`; each
host either returns the connected pair or overwrites `err`; after the loop
the last error is unwrapped ( `none` models the panic of
`err.unwrap()` on an empty host list). -/
def connectFold {E C : Type} : List (Except E C) → Option E → Option (Except E C)
  | [], none => none
  | [], some e => some (.error e)
  | .ok c :: _, _ => some (.ok c)
  | .error e :: rest, _ => connectFold rest (some e)

/-- `driver::connect` entry point: fold over the configured hosts with no
error recorded yet. -/
def connect {E C : Type} (hosts : List (Except E C)) : Option (Except E C) :=
  connectFold hosts none

end Pg

namespace H1

/-- `h1::error::Error`, restricted to the shapes the dispatcher I/O helpers
produce: `Error::Closed` and converted `io::Error`s (by error-kind code). -/
inductive H1Error where
  | closed
  | ioErr (code : Nat)
deriving DecidableEq, Repr

/-- One outcome of `io.try_read_buf` on the underlying `AsyncStream`:
`data bs` is `Ok(bs.len())` appending `bs` (so `data []` is `Ok(0)`),
the rest are the error kinds `try_read` distinguishes. -/
inductive ReadOutcome where
  | data (bytes : List Nat)
  | wouldBlock
  | connReset
  | otherErr (code : Nat)
deriving DecidableEq, Repr

/-- `ReadBuf` (`src/actix-http-alt/src/h1/proto/buf.rs`, as used by the
dispatcher): the buffered bytes plus the "advanced since last parse"
flag. -/
structure ReadBuf where
  buf : List Nat
  advanced : Bool
deriving DecidableEq, Repr

/-- `ReadBuf::advance(bool)`: set the advanced flag. -/
def ReadBuf.advance (rb : ReadBuf) (b : Bool) : ReadBuf :=
  { rb with advanced := b }

/-- The read loop of `Io::try_read` (`dispatcher.rs` lines 60-70): repeat
`try_read_buf`; `Ok(0)` is `Error::Closed`; `Ok(n)` appends and sets the
advanced flag; `WouldBlock` returns `Ok`; `ConnectionReset` is
`Error::Closed`; any other error is returned converted. The unconsumed
outcomes are returned so later reads continue the stream; an exhausted
outcome list stands for an io that would block. -/
def tryReadLoop : List ReadOutcome → ReadBuf → Except H1Error (ReadBuf × List ReadOutcome)
  | [], rb => .ok (rb, [])
  | o :: rest, rb =>
      match o with
      | .data [] => .error .closed
      | .data bs => tryReadLoop rest { buf := rb.buf ++ bs, advanced := true }
      | .wouldBlock => .ok (rb, rest)
      | .connReset => .error .closed
      | .otherErr c => .error (.ioErr c)

/-- `Io::try_read` (`dispatcher.rs` lines 56-71): clear the advanced flag
(`read_buf.advance(false)`), then loop non-blocking reads. -/
def Io.try_read (io : List ReadOutcome) (rb : ReadBuf) :
    Except H1Error (ReadBuf × List ReadOutcome) :=
  tryReadLoop io (rb.advance false)

/-- `Dispatcher::decode_head` (`dispatcher.rs` lines 225-241) with the
head parser (`ctx.decode_head`, outside the analysed sources) as a
parameter: only when `read_buf.advanced()` is the parser consulted; the
second component records whether a parse was attempted. -/
def Dispatcher.decode_head {H : Type} (parse : List Nat → Except H1Error (Option H))
    (rb : ReadBuf) : Except H1Error (Option H) × Bool :=
  if rb.advanced then (parse rb.buf, true) else (.ok none, false)

/-- An item produced by the request-body decoder
(`RequestBodyItem::Chunk` / `RequestBodyItem::Eof`). -/
inductive BodyItem where
  | chunk (bytes : List Nat)
  | eofItem
deriving DecidableEq, Repr

/-- The dispatcher-side view of a `RequestBodySender`: the chunks fed so
far and whether `feed_eof` has been called. -/
structure Sender where
  fed : List (List Nat)
  eofFed : Bool
deriving DecidableEq, Repr

/-- `RequestBodySender::feed_data`. -/
def Sender.feed_data (s : Sender) (bs : List Nat) : Sender :=
  { s with fed := s.fed ++ [bs] }

/-- `RequestBodySender::feed_eof`. -/
def Sender.feed_eof (s : Sender) : Sender :=
  { s with eofFed := true }

/-- A request-body decoder step (`handle.decoder.decode(buf)`, from
`h1::proto::decode`, outside the analysed sources): on the buffered bytes
it may fail, yield nothing, or yield an item together with the bytes left
in the buffer. -/
abbrev Decoder := List Nat → Except H1Error (Option (BodyItem × List Nat))

/-- State threaded through the body pump: buffered bytes, sender, whether
new data was decoded, whether the eof chunk was seen. -/
structure PumpSt where
  buf : List Nat
  sender : Sender
  decodedNew : Bool
  done : Bool
deriving DecidableEq, Repr

/-- The inner decode loop of `Io::poll_read_decode_body` (`dispatcher.rs`
lines 155-165): while the decoder yields items, feed chunks to the sender;
on the eof item call `feed_eof`, mark done and break out of the read loop.
Fuel bounds the loop (each decoded chunk consumes buffered bytes in the
source decoder). -/
def decodeLoop (decode : Decoder) : Nat → PumpSt → Except H1Error PumpSt
  | 0, st => .ok st
  | fuel + 1, st =>
      match decode st.buf with
      | .error e => .error e
      | .ok none => .ok st
      | .ok (some (.chunk bs, rest)) =>
          decodeLoop decode fuel
            { st with buf := rest, sender := st.sender.feed_data bs, decodedNew := true }
      | .ok (some (.eofItem, rest)) =>
          .ok { buf := rest, sender := st.sender.feed_eof, decodedNew := true, done := true }

/-- The readiness loop of `Io::poll_read_decode_body` (`dispatcher.rs`
lines 149-167): while `poll_read_ready` is ready (one list of read
outcomes per readiness round; an exhausted round list stands for a pending
`poll_read_ready`), run `self.try_read()?` — note the `?`: a read error
propagates out — then, if the buffer advanced, run the decode loop;
stop early when the eof chunk was decoded. -/
def pumpRounds (decode : Decoder) :
    List (List ReadOutcome) → ReadBuf → Sender → Bool → Except H1Error (ReadBuf × PumpSt)
  | [], rb, s, newAcc => .ok (rb, ⟨rb.buf, s, newAcc, false⟩)
  | round :: rest, rb, s, newAcc =>
      match Io.try_read round rb with
      | .error e => .error e
      | .ok (rb', _) =>
          if rb'.advanced then
            match decodeLoop decode (rb'.buf.length + 1) ⟨rb'.buf, s, newAcc, false⟩ with
            | .error e => .error e
            | .ok st =>
                if st.done then .ok ({ rb' with buf := st.buf }, st)
                else pumpRounds decode rest { rb' with buf := st.buf } st.sender st.decodedNew
          else pumpRounds decode rest rb' s newAcc

/-- `Io::poll_read_decode_body` (`dispatcher.rs` lines 136-179): with no
body handle return `Ok(false)`; with a handle run the pump; when the eof
chunk was decoded the handle is removed. Returns the remaining handle
state (the sender), the read buffer and the "new data decoded" flag. -/
def Io.poll_read_decode_body (decode : Decoder) (rounds : List (List ReadOutcome))
    (handle : Option Sender) (rb : ReadBuf) :
    Except H1Error (Option Sender × ReadBuf × Bool) :=
  match handle with
  | none => .ok (none, rb, false)
  | some s =>
      match pumpRounds decode rounds rb s false with
      | .error e => .error e
      | .ok (rb', st) =>
          .ok (if st.done then none else some st.sender, rb', st.decodedNew)

/-- One iteration of `RequestHandler::poll` (`dispatcher.rs` lines
366-385) at a pending service poll: `svc` is the service future's poll
(`some` = ready with its converted response, `none` = pending), and
`pumpResult` the outcome of `poll_read_decode_body`. `some` is
`Poll::Ready` — in particular a pump error becomes `Ready(Err(_))` via
`?`, aborting the request; `none` covers both `Poll::Pending` and the
loop-continue on newly decoded data. -/
def RequestHandler.pollStep {R : Type} (svc : Option R)
    (pumpResult : Except H1Error Bool) : Option (Except H1Error R) :=
  match svc with
  | some r => some (.ok r)
  | none =>
      match pumpResult with
      | .error e => some (.error e)
      | .ok _ => none

/-- The bytes `Context::encode_continue` writes
(`HTTP/1.1 100 Continue\r\n\r\n`). Modelled from the spec: the encoder
lives in `h1::proto::context`, outside the analysed sources. -/
def continueBytes : List Nat :=
  ("HTTP/1.1 100 Continue" ++ String.mk [Char.ofNat 13, Char.ofNat 10, Char.ofNat 13, Char.ofNat 10]).toList.map Char.toNat

/-- Observable events of `Dispatcher::request_handler`. Requests are
identified by naturals. -/
inductive HEv where
  | callExpect (req : Nat)
  | writeBytes (bytes : List Nat)
  | drainWrite
  | callService (req : Nat)
deriving DecidableEq, Repr

/-- Environment of one `Dispatcher::request_handler` call: the
expect-continue flag decoded into the context, the expect service, the
`ResponseError::response_error` conversion, and the main service (whose
own errors `RequestHandler::poll` already folds through
`unwrap_or_else(ResponseError::response_error)`). -/
structure ExpectEnv (R : Type) where
  isExpect : Bool
  expectCall : Nat → Except Nat Nat
  responseError : Nat → R
  serviceCall : Nat → R

/-- `Dispatcher::request_handler` (`dispatcher.rs` lines 308-336): when
`ctx.is_expect()`, call the expect service; on success encode
`100 Continue` into the write buffer, `drain_write` it to the client, and
call the main service with the request the expect service returned; on
failure return `ResponseError::response_error(e)` without calling the
main service. Without the expect flag, call the main service directly. -/
def Dispatcher.request_handler {R : Type} (env : ExpectEnv R) (req : Nat) :
    R × List HEv :=
  if env.isExpect then
    match env.expectCall req with
    | .ok req' =>
        (env.serviceCall req',
          [.callExpect req, .writeBytes continueBytes, .drainWrite, .callService req'])
    | .error e => (env.responseError e, [.callExpect req])
  else
    (env.serviceCall req, [.callService req])

/-- The request-body decoder as `new_pair` observes it: only its
`is_eof()` answer matters there; the payload stands for the rest of the
decoder state. -/
structure RequestBodyDecoder where
  payload : Nat
  isEof : Bool
deriving DecidableEq, Repr

/-- The `RequestBody` given to the service, reduced to the observation the
claim is about. Modelled from the spec: `RequestBody::create` lives in
`h1::body`, outside the analysed sources; `create(true)` yields a body
that starts pre-closed (already at EOF), `create(false)` an open body fed
by the returned sender. -/
structure RequestBody where
  preClosed : Bool
deriving DecidableEq, Repr

/-- `RequestBody::create(eof)`: the sender half and the body half. -/
def RequestBody.create (eof : Bool) : Sender × RequestBody :=
  (⟨[], false⟩, ⟨eof⟩)

/-- `RequestBodyHandle`: the decoder paired with the body's sender. -/
structure RequestBodyHandle where
  decoder : RequestBodyDecoder
  sender : Sender
deriving DecidableEq, Repr

/-- `RequestBodyHandle::new_pair` (`dispatcher.rs` lines 450-459): when
the decoder is already at EOF, drop the sender and return no handle with a
pre-closed body; otherwise pair the decoder with the sender and return an
open body. -/
def RequestBodyHandle.new_pair (d : RequestBodyDecoder) :
    Option RequestBodyHandle × RequestBody :=
  if d.isEof then
    let p := RequestBody.create true
    (none, p.2)
  else
    let p := RequestBody.create false
    (some ⟨d, p.1⟩, p.2)

end H1

/-- Repeated follower calls on a spawner whose slot holds `id` return that
same `id` every time and leave the state untouched. -/
theorem Pg.spawnCalls_follower (id nid : Nat) :
    ∀ n, Pg.Spawner.spawnCalls ⟨some id, nid⟩ n =
      (List.replicate n (some id), ⟨some id, nid⟩) := by
  intro n
  induction n with
  | zero => rfl
  | succ n ih =>
      simp [Pg.Spawner.spawnCalls, Pg.Spawner.spawn_or_wait, ih, List.replicate_succ]

/-- C1: `SharedClient::query_raw` and `query_simple` call the client under
a read lock; exactly when the call returns `Error::DriverDown(buf)` the
read lock is dropped, `reconnect()` runs, the read lock is re-acquired and
the call is retried passing back exactly `buf`; every other result is
returned unchanged after a plain read-locked call. -/
theorem C1_shared_client_query_retry {R : Type} (env : Pg.QueryEnv R) :
    (∀ buf, env.clientResult = .error (.driverDown buf) →
      Pg.SharedClient.query_raw env =
        (env.retryResult buf,
          [.readLock, .dropReadLock, .reconnect, .readLock, .queryBuf buf]) ∧
      Pg.SharedClient.query_simple env =
        (env.retryResult buf,
          [.readLock, .dropReadLock, .reconnect, .readLock, .queryBuf buf])) ∧
    ((Pg.QueryEv.reconnect ∈ (Pg.SharedClient.query_raw env).2) ↔
      ∃ buf, env.clientResult = .error (.driverDown buf)) ∧
    (∀ code, env.clientResult = .error (.other code) →
      Pg.SharedClient.query_raw env = (.error (.other code), [.readLock]) ∧
      Pg.SharedClient.query_simple env = (.error (.other code), [.readLock])) ∧
    (∀ r, env.clientResult = .ok r →
      Pg.SharedClient.query_raw env = (.ok r, [.readLock]) ∧
      Pg.SharedClient.query_simple env = (.ok r, [.readLock])) := by
  obtain ⟨cr, rr⟩ := env
  cases cr with
  | ok r =>
      refine ⟨?_, ?_, ?_, ?_⟩ <;>
        simp [Pg.SharedClient.query_raw, Pg.SharedClient.query_simple]
  | error e =>
      cases e with
      | driverDown b =>
          refine ⟨?_, ?_, ?_, ?_⟩ <;>
            simp [Pg.SharedClient.query_raw, Pg.SharedClient.query_simple]
      | other code =>
          refine ⟨?_, ?_, ?_, ?_⟩ <;>
            simp [Pg.SharedClient.query_raw, Pg.SharedClient.query_simple]

/-- Witness for C1 at a concrete environment whose client call fails with
`DriverDown([1, 2])`. -/
theorem C1_shared_client_query_retry_witness :
    Pg.SharedClient.query_raw (R := Nat)
        ⟨.error (.driverDown [1, 2]), fun b => .ok b.length⟩ =
      (.ok 2, [.readLock, .dropReadLock, .reconnect, .readLock, .queryBuf [1, 2]]) :=
  ((C1_shared_client_query_retry
      ⟨.error (.driverDown [1, 2]), fun b => .ok b.length⟩).1 [1, 2] rfl).1

/-- C5: on an empty slot `spawn_or_wait` installs a fresh `Notify` and
returns `None` (leader path); every further call before the guard is
dropped returns `Some` of that same `Notify` and leaves the state
unchanged; dropping the `SpawnGuard` clears the slot and broadcasts. -/
theorem C5_spawn_or_wait_idempotent (s : Pg.Spawner) (h : s.notify = none) :
    s.spawn_or_wait = (none, ⟨some s.nextId, s.nextId + 1⟩) ∧
    (∀ n, Pg.Spawner.spawnCalls ⟨some s.nextId, s.nextId + 1⟩ n =
      (List.replicate n (some s.nextId), ⟨some s.nextId, s.nextId + 1⟩)) ∧
    Pg.SpawnGuard.dropGuard ⟨some s.nextId, s.nextId + 1⟩ =
      ⟨⟨none, s.nextId + 1⟩, true⟩ := by
  obtain ⟨slot, nid⟩ := s
  cases h
  exact ⟨rfl, Pg.spawnCalls_follower nid (nid + 1), rfl⟩

/-- Witness for C5 on the initial spawner state, exercising two follower
calls after the leader's installation. -/
theorem C5_spawn_or_wait_idempotent_witness :
    Pg.Spawner.spawn_or_wait ⟨none, 0⟩ = (none, ⟨some 0, 1⟩) ∧
    Pg.Spawner.spawnCalls ⟨some 0, 1⟩ 2 = ([some 0, some 0], ⟨some 0, 1⟩) ∧
    Pg.SpawnGuard.dropGuard ⟨some 0, 1⟩ = ⟨⟨none, 1⟩, true⟩ := by
  obtain ⟨h1, h2, h3⟩ := C5_spawn_or_wait_idempotent ⟨none, 0⟩ rfl
  exact ⟨h1, by simpa using h2 2, h3⟩

/-- The connect retry loop: with `k` failing attempts before the first
success, it returns the successful connection together with the
attempt/sleep trace, given enough fuel. -/
theorem Pg.connectRetry_spec (outcome : Nat → Option Nat) :
    ∀ (k i fuel c : Nat), k < fuel → outcome (i + k) = some c →
      (∀ j, j < k → outcome (i + j) = none) →
      Pg.connectRetry outcome i fuel = some (c, Pg.attemptTrace i k) := by
  intro k
  induction k with
  | zero =>
      intro i fuel c hk hc _
      cases fuel with
      | zero => omega
      | succ f => simp [Pg.connectRetry, Nat.add_zero] at hc ⊢; simp [hc, Pg.attemptTrace]
  | succ k ih =>
      intro i fuel c hk hc hfail
      cases fuel with
      | zero => omega
      | succ f =>
          have h0 : outcome i = none := by simpa using hfail 0 (Nat.succ_pos k)
          have hrec := ih (i + 1) f c (by omega)
            (by simpa [Nat.add_assoc, Nat.add_comm 1 k] using hc)
            (by
              intro j hj
              have := hfail (j + 1) (by omega)
              simpa [Nat.add_assoc, Nat.add_comm 1 j] using this)
          simp [Pg.connectRetry, h0, hrec, Pg.attemptTrace]

/-- The attempt trace of `k` failures before a success contains exactly `k`
one-second sleeps. -/
theorem Pg.attemptTrace_sleep_count :
    ∀ (k i : Nat), (Pg.attemptTrace i k).count Pg.SpawnEv.sleep1s = k := by
  intro k
  induction k with
  | zero => intro i; rfl
  | succ k ih =>
      intro i
      simp [Pg.attemptTrace, List.count_cons, ih (i + 1)]

/-- C4: the leader reconnect path connects with unbounded retry (one
one-second sleep per failed attempt), then replays every cached
`(id, query, types)` entry via `prepare_with_id` on the new client — so
the swapped-in client carries all cached statements — and drops the write
lock before dropping the `SpawnGuard` (visible in the trace order). -/
theorem C4_reconnect_leader_replays_cache (outcome : Nat → Option Nat)
    (cache : List Pg.CacheEntry) (k fuel c : Nat) (hk : k < fuel)
    (hc : outcome k = some c) (hfail : ∀ j, j < k → outcome j = none) :
    Pg.SharedClient.reconnectLeader outcome cache fuel =
      some (⟨c, cache⟩,
        .writeLockAcquire ::
          (Pg.attemptTrace 0 k ++ cache.map Pg.SpawnEv.prepareWithId) ++
            [.writeLockDrop, .guardDrop]) ∧
    (Pg.attemptTrace 0 k).count Pg.SpawnEv.sleep1s = k := by
  have hretry := Pg.connectRetry_spec outcome k 0 fuel c hk (by simpa using hc)
    (by intro j hj; simpa using hfail j hj)
  constructor
  · simp [Pg.SharedClient.reconnectLeader, Pg.SpawnGuard.spawn, hretry]
  · exact Pg.attemptTrace_sleep_count k 0

/-- Witness for C4: two failed attempts, success on the third, one cached
statement replayed with its preserved id. -/
theorem C4_reconnect_leader_replays_cache_witness :
    Pg.SharedClient.reconnectLeader (fun i => if i = 2 then some 7 else none)
        [(11, "select 1", [23])] 3 =
      some (⟨7, [(11, "select 1", [23])]⟩,
        [.writeLockAcquire, .connectAttempt 0, .sleep1s, .connectAttempt 1,
          .sleep1s, .connectAttempt 2, .prepareWithId (11, "select 1", [23]),
          .writeLockDrop, .guardDrop]) := by
  have h := (C4_reconnect_leader_replays_cache
      (fun i => if i = 2 then some 7 else none) [(11, "select 1", [23])] 2 3 7
      (by decide) (by decide) (by intro j hj; interval_cases j <;> decide)).1
  simpa [Pg.attemptTrace] using h

/-- Whenever the slow pipeline path returns a result, that result is a
success or a non-driver-down error: a `DriverDown` outcome always loops. -/
theorem Pg.pipeline_slow_sound {R : Type} (env : Pg.PipeEnv R) :
    ∀ (fuel k : Nat) (b : Pg.Buf) (res : Except Pg.Error R) (evs : List Pg.PipeEv),
      Pg.SharedClient.pipeline_slow env k b fuel = some (res, evs) →
      (∃ r, res = .ok r) ∨ ∃ code, res = .error (.other code) := by
  intro fuel
  induction fuel with
  | zero => intro k b res evs h; simp [Pg.SharedClient.pipeline_slow] at h
  | succ f ih =>
      intro k b res evs h
      rcases hslow : env.slowResult k b with e | r
      · cases e with
        | driverDown b' =>
            simp only [Pg.SharedClient.pipeline_slow, hslow,
              Option.map_eq_some'] at h
            obtain ⟨⟨res', evs'⟩, hrec, heq⟩ := h
            have hres : res' = res := by
              simpa using congrArg Prod.fst heq
            exact hres ▸ ih (k + 1) b' res' evs' hrec
        | other code =>
            simp only [Pg.SharedClient.pipeline_slow, hslow, Option.some.injEq,
              Prod.mk.injEq] at h
            exact Or.inr ⟨code, h.1.symm⟩
      · simp only [Pg.SharedClient.pipeline_slow, hslow, Option.some.injEq,
          Prod.mk.injEq] at h
        exact Or.inl ⟨r, h.1.symm⟩

/-- C9: when the fast pipeline path fails with `DriverDown(b0)`, the slow
path reconnects and resends exactly `b0` via `_pipeline_no_additive_sync`;
on repeated `DriverDown` it loops with the newly carried buffer; it can
only return a success or a non-driver-down error; and a non-driver-down
fast error is returned without any reconnect. -/
theorem C9_pipeline_resends_via_no_additive_sync {R : Type} (env : Pg.PipeEnv R)
    (buf b0 : Pg.Buf) (fuel : Nat) :
    (env.fastResult = .error (.driverDown b0) →
      ∀ r, env.slowResult 0 b0 = .ok r →
        Pg.SharedClient.pipeline env buf (fuel + 1) =
          some (.ok r, [.readLock, .fastPipeline buf, .reconnect, .readLock,
            .noAdditiveSync b0])) ∧
    (∀ k b b', env.slowResult k b = .error (.driverDown b') →
      Pg.SharedClient.pipeline_slow env k b (fuel + 1) =
        (Pg.SharedClient.pipeline_slow env (k + 1) b' fuel).map
          (fun p => (p.1, .reconnect :: .readLock :: .noAdditiveSync b :: p.2))) ∧
    (∀ (f k : Nat) (b : Pg.Buf) (res : Except Pg.Error R) (evs : List Pg.PipeEv),
      Pg.SharedClient.pipeline_slow env k b f = some (res, evs) →
      (∃ r, res = .ok r) ∨ ∃ code, res = .error (.other code)) ∧
    (∀ code, env.fastResult = .error (.other code) →
      Pg.SharedClient.pipeline env buf fuel =
        some (.error (.other code), [.readLock, .fastPipeline buf])) := by
  refine ⟨?_, ?_, fun f k b res evs h => Pg.pipeline_slow_sound env f k b res evs h, ?_⟩
  · intro hfast r hslow
    simp [Pg.SharedClient.pipeline, hfast, Pg.SharedClient.pipeline_slow, hslow]
  · intro k b b' hslow
    simp [Pg.SharedClient.pipeline_slow, hslow]
  · intro code hfast
    simp [Pg.SharedClient.pipeline, hfast]

/-- Witness for C9: fast path fails carrying `[1]`; the single slow
iteration resends `[1]` and succeeds. -/
theorem C9_pipeline_resends_via_no_additive_sync_witness :
    Pg.SharedClient.pipeline (R := Nat)
        ⟨.error (.driverDown [1]), fun _ _ => .ok 42⟩ [9, 9] 1 =
      some (.ok 42, [.readLock, .fastPipeline [9, 9], .reconnect, .readLock,
        .noAdditiveSync [1]]) :=
  (C9_pipeline_resends_via_no_additive_sync
      ⟨.error (.driverDown [1]), fun _ _ => .ok 42⟩ [9, 9] [1] 0).1 rfl 42 rfl

/-- The host fold returns the first successful connection, whatever error
is already recorded. -/
theorem Pg.connectFold_first_success {E C : Type} (errs : List E) (c : C)
    (rest : List (Except E C)) :
    ∀ acc : Option E,
      Pg.connectFold (errs.map Except.error ++ Except.ok c :: rest) acc =
        some (.ok c) := by
  induction errs with
  | nil => intro acc; rfl
  | cons e tl ih => intro acc; simpa [Pg.connectFold] using ih (some e)

/-- When every host fails, the host fold returns the last host's error. -/
theorem Pg.connectFold_all_fail {E C : Type} :
    ∀ (errs : List E) (e : E), errs.getLast? = some e →
      ∀ acc : Option E,
        Pg.connectFold (C := C) (errs.map Except.error) acc = some (.error e) := by
  intro errs
  induction errs with
  | nil => intro e he; simp at he
  | cons a tl ih =>
      intro e he acc
      cases tl with
      | nil =>
          simp at he
          subst he
          rfl
      | cons b tl' =>
          rw [List.getLast?_cons_cons] at he
          simpa [Pg.connectFold] using ih e he (some a)

/-- C10: `driver::connect` tries the configured hosts in order — the first
success wins; if every host fails the last host's error is returned; and
on an empty host list it panics (`err.unwrap()` of `None`, modelled as
`none`) instead of returning an error. -/
theorem C10_connect_host_failover {E C : Type} (errs : List E) (c : C)
    (rest : List (Except E C)) (e : E) :
    Pg.connect (errs.map Except.error ++ Except.ok c :: rest) = some (.ok c) ∧
    (errs.getLast? = some e →
      Pg.connect (C := C) (errs.map Except.error) = some (.error e)) ∧
    Pg.connect ([] : List (Except E C)) = none :=
  ⟨Pg.connectFold_first_success errs c rest none,
    fun he => Pg.connectFold_all_fail errs e he none, rfl⟩

/-- Witness for C10: two failing hosts before a success, and two failing
hosts with no success returning the second host's error. -/
theorem C10_connect_host_failover_witness :
    Pg.connect ([10, 11].map Except.error ++ Except.ok 5 :: []) = some (.ok 5) ∧
    Pg.connect (C := Nat) ([10, 11].map Except.error) = some (.error 11) := by
  obtain ⟨h1, h2, _⟩ := C10_connect_host_failover (C := Nat) [10, 11] 5 [] 11
  exact ⟨h1, h2 rfl⟩

/-- A successful `tryReadLoop` run either leaves the read buffer exactly as
it started or strictly extends it with the advanced flag set. -/
theorem H1.tryReadLoop_result_advanced :
    ∀ (io : List H1.ReadOutcome) (b : List Nat) (a : Bool) (rb' : H1.ReadBuf)
      (rest : List H1.ReadOutcome),
      H1.tryReadLoop io ⟨b, a⟩ = .ok (rb', rest) →
      rb' = ⟨b, a⟩ ∨ (b.length < rb'.buf.length ∧ rb'.advanced = true) := by
  intro io
  induction io with
  | nil =>
      intro b a rb' rest h
      simp only [H1.tryReadLoop, Except.ok.injEq, Prod.mk.injEq] at h
      exact Or.inl h.1.symm
  | cons o tl ih =>
      intro b a rb' rest h
      cases o with
      | data bs =>
          cases bs with
          | nil => simp [H1.tryReadLoop] at h
          | cons x xs =>
              have h' : H1.tryReadLoop tl ⟨b ++ x :: xs, true⟩ = .ok (rb', rest) := h
              rcases ih (b ++ x :: xs) true rb' rest h' with heq | ⟨hlt, hadv⟩
              · refine Or.inr ⟨?_, by simp [heq]⟩
                simp [heq]
              · refine Or.inr ⟨lt_trans ?_ hlt, hadv⟩
                simp
      | wouldBlock =>
          simp only [H1.tryReadLoop, Except.ok.injEq, Prod.mk.injEq] at h
          exact Or.inl h.1.symm
      | connReset => simp [H1.tryReadLoop] at h
      | otherErr c => simp [H1.tryReadLoop] at h

/-- C6: `decode_head` consults the head parser exactly when
`ReadBuf.advanced` is set (and otherwise returns without touching the
parser), and a successful `try_read` — which clears the flag on entry and
sets it on every non-zero read — leaves the flag set exactly when it
appended bytes to the buffer. -/
theorem C6_decode_head_gated_on_advanced {H : Type}
    (parse : List Nat → Except H1.H1Error (Option H)) (rb rb' : H1.ReadBuf)
    (io rest : List H1.ReadOutcome) :
    ((H1.Dispatcher.decode_head parse rb).2 = true ↔ rb.advanced = true) ∧
    (rb.advanced = false → H1.Dispatcher.decode_head parse rb = (.ok none, false)) ∧
    (rb.advanced = true → H1.Dispatcher.decode_head parse rb = (parse rb.buf, true)) ∧
    (H1.Io.try_read io rb = .ok (rb', rest) →
      (rb'.advanced = true ↔ rb.buf.length < rb'.buf.length)) := by
  refine ⟨?_, ?_, ?_, ?_⟩
  · cases hadv : rb.advanced <;> simp [H1.Dispatcher.decode_head, hadv]
  · intro hadv; simp [H1.Dispatcher.decode_head, hadv]
  · intro hadv; simp [H1.Dispatcher.decode_head, hadv]
  · intro h
    have h' : H1.tryReadLoop io ⟨rb.buf, false⟩ = .ok (rb', rest) := h
    rcases H1.tryReadLoop_result_advanced io rb.buf false rb' rest h' with heq | ⟨hlt, hadv⟩
    · constructor
      · intro hadv; rw [heq] at hadv; simp at hadv
      · intro hlt; rw [heq] at hlt; simp at hlt
    · simp [hadv, hlt]

/-- Witness for C6: a read appending one byte leaves the flag set, and the
flag gates the parse attempt. -/
theorem C6_decode_head_gated_on_advanced_witness :
    ((⟨[5], true⟩ : H1.ReadBuf).advanced = true ↔
      ([] : List Nat).length < ([5] : List Nat).length) ∧
    H1.Dispatcher.decode_head (fun _ => .ok (none : Option Nat)) ⟨[5], false⟩ =
      (.ok none, false) := by
  have h := C6_decode_head_gated_on_advanced (fun _ => .ok (none : Option Nat))
    ⟨[], false⟩ ⟨[5], true⟩ [.data [5], .wouldBlock] []
  have h' := C6_decode_head_gated_on_advanced (fun _ => .ok (none : Option Nat))
    ⟨[5], false⟩ ⟨[5], true⟩ [] []
  exact ⟨h.2.2.2 rfl, h'.2.1 rfl⟩

/-- Reading a run of non-empty data outcomes appends all their bytes and
sets the advanced flag, leaving the loop at the remaining outcomes. -/
theorem H1.tryReadLoop_all_data :
    ∀ (chunks : List (List Nat)), (∀ c ∈ chunks, c ≠ []) →
      ∀ (tail : List H1.ReadOutcome) (b : List Nat) (a : Bool),
        H1.tryReadLoop (chunks.map .data ++ tail) ⟨b, a⟩ =
          H1.tryReadLoop tail ⟨b ++ chunks.flatten, if chunks.isEmpty then a else true⟩ := by
  intro chunks
  induction chunks with
  | nil => intro _ tail b a; simp
  | cons c cs ih =>
      intro h tail b a
      have hc : c ≠ [] := h c (by simp)
      obtain ⟨x, xs, rfl⟩ := List.exists_cons_of_ne_nil hc
      have ih' := ih (fun c hc => h c (by simp [hc])) tail (b ++ x :: xs) true
      cases hcs : cs.isEmpty <;>
        simp_all [H1.tryReadLoop, List.append_assoc]

/-- C8: `Io::try_read` loops non-blocking reads, appending every non-zero
chunk into the read buffer, until `WouldBlock` returns `Ok`; an `Ok(0)`
read or a `ConnectionReset` error yields the fatal `Closed` error, and any
other I/O error is returned as an error. -/
theorem C8_try_read_until_would_block (rb : H1.ReadBuf) (chunks : List (List Nat))
    (tail : List H1.ReadOutcome) (code : Nat) (h : ∀ c ∈ chunks, c ≠ []) :
    H1.Io.try_read (chunks.map .data ++ .wouldBlock :: tail) rb =
      .ok (⟨rb.buf ++ chunks.flatten, !chunks.isEmpty⟩, tail) ∧
    H1.Io.try_read (chunks.map .data ++ .data [] :: tail) rb = .error .closed ∧
    H1.Io.try_read (chunks.map .data ++ .connReset :: tail) rb = .error .closed ∧
    H1.Io.try_read (chunks.map .data ++ .otherErr code :: tail) rb =
      .error (.ioErr code) := by
  have key := fun t => H1.tryReadLoop_all_data chunks h t rb.buf false
  refine ⟨?_, ?_, ?_, ?_⟩ <;>
    cases hc : chunks.isEmpty <;>
      simp [H1.Io.try_read, H1.ReadBuf.advance, key, hc, H1.tryReadLoop]

/-- Witness for C8: two non-empty reads followed by `WouldBlock` append
both chunks and set the advanced flag. -/
theorem C8_try_read_until_would_block_witness :
    H1.Io.try_read ([[1], [2, 3]].map H1.ReadOutcome.data ++ .wouldBlock :: [])
        ⟨[], false⟩ =
      .ok (⟨[1, 2, 3], true⟩, []) ∧
    H1.Io.try_read ([[1], [2, 3]].map H1.ReadOutcome.data ++ .connReset :: [])
        ⟨[], false⟩ = .error .closed := by
  have h := C8_try_read_until_would_block ⟨[], false⟩ [[1], [2, 3]] [] 0 (by decide)
  exact ⟨h.1, h.2.2.1⟩

/-- C7: `RequestBodyHandle::new_pair` returns no handle exactly when the
decoder reports EOF at decode time — the body then starts pre-closed — and
otherwise returns a handle pairing the decoder with the open body's
sender. -/
theorem C7_new_pair_eof_gate (d : H1.RequestBodyDecoder) :
    ((H1.RequestBodyHandle.new_pair d).1 = none ↔ d.isEof = true) ∧
    (H1.RequestBodyHandle.new_pair d).2.preClosed = d.isEof ∧
    (d.isEof = false →
      H1.RequestBodyHandle.new_pair d =
        (some ⟨d, (H1.RequestBody.create false).1⟩, ⟨false⟩)) := by
  obtain ⟨p, eo⟩ := d
  cases eo <;> simp [H1.RequestBodyHandle.new_pair, H1.RequestBody.create]

/-- Witness for C7: a non-EOF decoder yields a handle carrying that
decoder; an EOF decoder yields none with a pre-closed body. -/
theorem C7_new_pair_eof_gate_witness :
    H1.RequestBodyHandle.new_pair ⟨0, false⟩ =
      (some ⟨⟨0, false⟩, ⟨[], false⟩⟩, ⟨false⟩) ∧
    (H1.RequestBodyHandle.new_pair ⟨0, true⟩).1 = none ∧
    (H1.RequestBodyHandle.new_pair ⟨0, true⟩).2.preClosed = true := by
  refine ⟨(C7_new_pair_eof_gate ⟨0, false⟩).2.2 rfl, ?_, ?_⟩
  · exact (C7_new_pair_eof_gate ⟨0, true⟩).1.mpr rfl
  · exact (C7_new_pair_eof_gate ⟨0, true⟩).2.1

/-- C3: for a request carrying `Expect: 100-continue` the expect service
runs first; on success the literal `HTTP/1.1 100 Continue\r\n\r\n` bytes
are written and the write buffer drained before the main service is called
with the request the expect service returned; on failure the error is
converted through `ResponseError` and the main service is never called. -/
theorem C3_expect_continue_handshake {R : Type} (env : H1.ExpectEnv R)
    (req : Nat) :
    (∀ req', env.isExpect = true → env.expectCall req = .ok req' →
      H1.Dispatcher.request_handler env req =
        (env.serviceCall req',
          [.callExpect req, .writeBytes H1.continueBytes, .drainWrite,
            .callService req'])) ∧
    (∀ e, env.isExpect = true → env.expectCall req = .error e →
      H1.Dispatcher.request_handler env req = (env.responseError e, [.callExpect req]) ∧
      ∀ r, H1.HEv.callService r ∉ (H1.Dispatcher.request_handler env req).2) ∧
    H1.continueBytes =
      [72, 84, 84, 80, 47, 49, 46, 49, 32, 49, 48, 48, 32, 67, 111, 110, 116,
        105, 110, 117, 101, 13, 10, 13, 10] := by
  refine ⟨?_, ?_, by decide⟩
  · intro req' hexp hok
    simp [H1.Dispatcher.request_handler, hexp, hok]
  · intro e hexp herr
    refine ⟨by simp [H1.Dispatcher.request_handler, hexp, herr], ?_⟩
    intro r
    simp [H1.Dispatcher.request_handler, hexp, herr]

/-- Witness for C3: an accepting expect service leads to continue bytes,
a drain, then the main service on the replaced request; a rejecting one
skips the main service. -/
theorem C3_expect_continue_handshake_witness :
    H1.Dispatcher.request_handler (R := Nat)
        ⟨true, fun r => .ok (r + 1), fun e => e, fun r => r * 10⟩ 5 =
      (60, [.callExpect 5, .writeBytes H1.continueBytes, .drainWrite,
        .callService 6]) ∧
    H1.Dispatcher.request_handler (R := Nat)
        ⟨true, fun _ => .error 3, fun e => e, fun r => r * 10⟩ 5 =
      (3, [.callExpect 5]) := by
  refine ⟨?_, ?_⟩
  · exact (C3_expect_continue_handshake
      ⟨true, fun r => .ok (r + 1), fun e => e, fun r => r * 10⟩ 5).1 6 rfl rfl
  · exact ((C3_expect_continue_handshake
      ⟨true, fun _ => .error 3, fun e => e, fun r => r * 10⟩ 5).2.1 3 rfl rfl).1

/-- C2: contrary to the claim, a read error while the dispatcher pumps the
request body during the service call is fatal: `poll_read_decode_body`
propagates it (`let _ = self.try_read()?`) without feeding EOF to the
body sender, and `RequestHandler::poll` turns it into `Poll::Ready(Err)`,
aborting the request — the `TODO` comment above the loop records that the
error was meant to be treated as a finished read instead. Here the socket
reports `ConnectionReset` on the first readiness round while a body handle
is live. -/
theorem C2_body_read_error_aborts :
    H1.Io.poll_read_decode_body (fun _ => .ok none) [[.connReset]]
        (some ⟨[], false⟩) ⟨[], false⟩ = .error .closed ∧
    H1.RequestHandler.pollStep (R := Nat) none (.error .closed) =
      some (.error .closed) ∧
    (⟨[], false⟩ : H1.Sender).eofFed = false :=
  ⟨rfl, rfl, rfl⟩
